import Mathlib

/-!
Shallow embedding of `MINTConformance/src/org/nema/medical/mint/DicomStudy.py`.

The `DicomStudy` class aggregates a directory tree of DICOM files into an
ordered sequence of instances plus an index keyed by SOP instance UID, manages
an optional output sink, produces a textual dump, and tidies up resources.

Python effects are made explicit: the filesystem is a value (`FS`), exceptions
are an `Option PyError` (or `Except PyError`) component of each result, and
object mutation is state passing.  The collaborators `DicomInstance` and
`DataDictionary` are not part of the analysed sources; the definitions that
stand in for them carry a doc comment starting `Modelled from the spec:`.
-/

namespace MintConformance

/-- The Python exceptions that the embedded code can raise: `IOError` with a
message, `NameError` for an unbound name, `IndexError` from list indexing and
`KeyError` from a dict lookup. -/
inductive PyError where
  | ioError (msg : String)
  | nameError (name : String)
  | indexError
  | keyError (k : String)
deriving Repr, DecidableEq

/-- Modelled from the spec: a `DicomInstance` descriptor (the InstanceDescriptor
collaborator, whose source is not under analysis).  It exposes the file it came
from, a unique instance identifier (`sopInstanceUID`, the index key), a
parent-study identifier (`studyInstanceUID`) and a resource-release capability.
`tidyFails` records whether its release capability raises when invoked and
`tidyCount` how many times the release capability has been invoked so far. -/
structure Inst where
  filename : String
  sopInstanceUID : String
  studyInstanceUID : String
  tidyFails : Bool
  tidyCount : Nat
deriving Repr, DecidableEq

/-- Modelled from the spec: one file of a directory, together with what the
format-detection predicate `DicomInstance.isDicom` answers for it and the
identifiers the descriptor constructed from it would report. -/
structure FileEntry where
  name : String
  isDicom : Bool
  sopInstanceUID : String
  studyInstanceUID : String
  tidyFails : Bool
deriving Repr, DecidableEq

/-- A directory tree: a path, the files directly in it, and its
subdirectories. -/
inductive DirTree where
  | node (path : String) (files : List FileEntry) (subdirs : List DirTree)

/-- The path at the root of a directory tree. -/
def DirTree.path : DirTree → String
  | .node p _ _ => p

/-- The files directly at the root of a directory tree. -/
def DirTree.files : DirTree → List FileEntry
  | .node _ fs _ => fs

/-- The subdirectories at the root of a directory tree. -/
def DirTree.subdirs : DirTree → List DirTree
  | .node _ _ ts => ts

/-- The filesystem visible to the code: existing directories (each with its
tree) and existing regular files (path and contents). -/
structure FS where
  dirs : List (String × DirTree)
  files : List (String × String)

/-- `os.path.isdir`: does the path name an existing directory? -/
def FS.isdir (fs : FS) (p : String) : Bool :=
  fs.dirs.any (fun d => d.1 == p)

/-- The directory tree found at a path, if the path is an existing
directory. -/
def FS.lookupDir (fs : FS) (p : String) : Option DirTree :=
  (fs.dirs.find? (fun d => d.1 == p)).map (fun d => d.2)

/-- `os.access(p, os.F_OK)`: does the path exist (as a file or directory)? -/
def FS.access (fs : FS) (p : String) : Bool :=
  fs.files.any (fun f => f.1 == p) || fs.isdir p

/-- `open(p, "w")` on a path that does not exist yet: the file is created with
empty contents. -/
def FS.openWrite (fs : FS) (p : String) : FS :=
  { fs with files := fs.files ++ [(p, "")] }

/-- `os.path.join(root, name)` for the plain relative names the walk
produces. -/
def join (root name : String) : String :=
  root ++ "/" ++ name

mutual
/-- `os.walk(dir, topdown=False)`: yields every directory of the tree as a
pair of its path and its files, all subdirectories (in order) before the
directory itself. -/
def walkBottomUp : DirTree → List (String × List FileEntry)
  | .node path files subdirs => walkForest subdirs ++ [(path, files)]

/-- The bottom-up walks of a list of sibling subdirectories, in order. -/
def walkForest : List DirTree → List (String × List FileEntry)
  | [] => []
  | t :: ts => walkBottomUp t ++ walkForest ts
end

/-- The files of one walked directory whose full names pass
`DicomInstance.isDicom`, with their full names `join root name`. -/
def acceptedIn (root : String) (files : List FileEntry) : List FileEntry :=
  (files.filter (fun f => f.isDicom)).map (fun f => { f with name := join root f.name })

/-- The `dcmNames` collection of `DicomStudy.__read`: for every walked
directory, every file whose full name passes `DicomInstance.isDicom`, with its
full name `join root name`, in walk order. -/
def dcmEntries (walk : List (String × List FileEntry)) : List FileEntry :=
  walk.flatMap (fun rf => acceptedIn rf.1 rf.2)

/-- The accepted files of a whole directory tree, in the order
`DicomStudy.__read` appends them. -/
def dcmNamesOf (t : DirTree) : List FileEntry :=
  dcmEntries (walkBottomUp t)

/-- Modelled from the spec: `DicomInstance(dcmName, dataDictionary)` constructs
a descriptor for the file, reporting the identifiers found in the file; its
release capability has not been invoked yet. -/
def mkInstance (f : FileEntry) : Inst :=
  { filename := f.name
    sopInstanceUID := f.sopInstanceUID
    studyInstanceUID := f.studyInstanceUID
    tidyFails := f.tidyFails
    tidyCount := 0 }

/-- A Python dict store `d[k] = v`: if the key is present its entry is
overwritten in place, otherwise the pair is appended. -/
def dictSet (d : List (String × Inst)) (k : String) (v : Inst) : List (String × Inst) :=
  if d.any (fun p => p.1 == k) then
    d.map (fun p => if p.1 == k then (k, v) else p)
  else
    d ++ [(k, v)]

/-- A Python dict lookup `d[k]`: the entry for the key, or a `KeyError`. -/
def dictGet (d : List (String × Inst)) (k : String) : Except PyError Inst :=
  match d.find? (fun p => p.1 == k) with
  | some p => .ok p.2
  | none => .error (.keyError k)

/-- How many entries of a dict carry a given key. -/
def countKey (d : List (String × Inst)) (k : String) : Nat :=
  (d.filter (fun p => p.1 == k)).length

/-- The output sink: an open file object, with its path and whether `close()`
has been called on it. -/
structure Sink where
  path : String
  closed : Bool
deriving Repr, DecidableEq

/-- The state of a `DicomStudy` object: source directory, ordered sequence of
instances (`self.__instances`), the UID index (`self.__instancesByUID`), the
data-dictionary reference and the optional output sink. -/
structure DicomStudy where
  dcmDir : String
  instances : List Inst
  instancesByUID : List (String × Inst)
  dataDictionary : String
  output : Option Sink
deriving Repr, DecidableEq

/-- The body of the second loop of `DicomStudy.__read`: construct the instance
for one accepted file, append it to the ordered sequence and store it in the
index under its SOP instance UID. -/
def readStep (s : DicomStudy) (f : FileEntry) : DicomStudy :=
  let inst := mkInstance f
  { s with
      instances := s.instances ++ [inst]
      instancesByUID := dictSet s.instancesByUID inst.sopInstanceUID inst }

/-- `DicomStudy.__read`, given the tree at `self.__dcmDir`: collects the
accepted file names bottom-up, then for each constructs an instance, appends it
to the ordered sequence and stores it in the index under its SOP instance
UID. -/
def DicomStudy.read (st : DicomStudy) (tree : DirTree) : DicomStudy :=
  (dcmNamesOf tree).foldl readStep st

/-- `DicomStudy.__init__(dcmDir, dataDictionaryUrl)`: raises
`IOError("Directory does not exist - ...")` unless `dcmDir` is an existing
directory; otherwise builds the study with empty sequence, empty index, no
output sink, and runs `__read` over the directory tree. -/
def DicomStudy.init (dcmDir dataDictionaryUrl : String) (fs : FS) :
    Except PyError DicomStudy :=
  match fs.lookupDir dcmDir with
  | none => .error (.ioError ("Directory does not exist - " ++ dcmDir))
  | some tree =>
      .ok (DicomStudy.read
        { dcmDir := dcmDir
          instances := []
          instancesByUID := []
          dataDictionary := dataDictionaryUrl
          output := none } tree)

/-- `DicomStudy.setOutput(output)`: returns at once on the empty string; if a
sink is attached, the line `self.__output(close)` evaluates the unbound name
`close` and raises `NameError` before anything else happens; otherwise raises
`IOError("File already exists - ...")` when the path exists, and else opens the
path for writing and attaches it.  The result carries the post-call object and
filesystem states together with the raised exception, if any. -/
def DicomStudy.setOutput (st : DicomStudy) (fs : FS) (output : String) :
    DicomStudy × FS × Option PyError :=
  if output = "" then (st, fs, none)
  else
    match st.output with
    | some _ => (st, fs, some (.nameError "close"))
    | none =>
        if fs.access output then
          (st, fs, some (.ioError ("File already exists - " ++ output)))
        else
          ({ st with output := some { path := output, closed := false } },
            fs.openWrite output, none)

/-- Modelled from the spec: one invocation of a descriptor resource-release
capability (`DicomInstance.tidy`).  The invocation is recorded in `tidyCount`;
it raises when the descriptor is one whose release fails. -/
def tidyInstance (i : Inst) : Inst × Option PyError :=
  ({ i with tidyCount := i.tidyCount + 1 },
    if i.tidyFails then some (.ioError ("cannot remove binary items - " ++ i.filename))
    else none)

/-- The loop `for instance in self.__instances: instance.tidy()`: invokes the
release capability of each instance in order; a raised exception aborts the
loop, leaving the remaining instances untouched. -/
def tidyLoop : List Inst → List Inst × Option PyError
  | [] => ([], none)
  | i :: rest =>
      let r := tidyInstance i
      match r.2 with
      | some err => (r.1 :: rest, some err)
      | none =>
          let rs := tidyLoop rest
          (r.1 :: rs.1, rs.2)

/-- `DicomStudy.tidy()`: runs the release loop over the ordered sequence and
then, when it finished without an exception and a sink is attached, closes the
sink. -/
def DicomStudy.tidy (st : DicomStudy) : DicomStudy × Option PyError :=
  let r := tidyLoop st.instances
  match r.2 with
  | some err => ({ st with instances := r.1 }, some err)
  | none =>
      match st.output with
      | none => ({ st with instances := r.1 }, none)
      | some s =>
          ({ st with instances := r.1, output := some { s with closed := true } }, none)

/-- `DicomStudy.numInstances()`: the length of the ordered sequence. -/
def DicomStudy.numInstances (st : DicomStudy) : Nat :=
  st.instances.length

/-- A Python list index normalised: negative indices count from the end. -/
def pyAdjust (len : Nat) (n : Int) : Int :=
  if n < 0 then n + len else n

/-- Python list subscription `xs[n]`: negative indices count from the end;
out of range raises `IndexError`. -/
def pyIndex {α : Type} (xs : List α) (n : Int) : Except PyError α :=
  if h : 0 ≤ pyAdjust xs.length n ∧ pyAdjust xs.length n < (xs.length : Int) then
    .ok (xs.get ⟨(pyAdjust xs.length n).toNat, by omega⟩)
  else
    .error .indexError

/-- `DicomStudy.instance(n)`: `self.__instances[n]`, Python list
subscription. -/
def DicomStudy.«instance» (st : DicomStudy) (n : Int) : Except PyError Inst :=
  pyIndex st.instances n

/-- `DicomStudy.instanceByUID(sopInstanceUID)`:
`self.__instancesByUID[sopInstanceUID]`, a dict lookup. -/
def DicomStudy.instanceByUID (st : DicomStudy) (sopInstanceUID : String) :
    Except PyError Inst :=
  dictGet st.instancesByUID sopInstanceUID

/-- `DicomStudy.studyInstanceUID()`: the `studyInstanceUID` reported by
`self.instance(0)` when the sequence is non-empty, else the empty string. -/
def DicomStudy.studyInstanceUID (st : DicomStudy) : Except PyError String :=
  if st.numInstances > 0 then
    (st.«instance» 0).map (fun i => i.studyInstanceUID)
  else
    .ok ""

/-- Where dump output lands: the lines printed to standard output and the text
written to files (path, text), each in order. -/
structure OutWorld where
  stdout : List String
  fileWrites : List (String × String)
deriving Repr, DecidableEq

/-- Modelled from the spec: the descriptor-defined text block that
`DicomInstance.debug(output)` writes for one instance. -/
def Inst.debugText (i : Inst) : String :=
  "> Instance " ++ i.sopInstanceUID

/-- Modelled from the spec: `DicomInstance.debug(output)` writes the
descriptor-defined block to the given sink, or prints it when the sink is
`None`. -/
def Inst.debug (i : Inst) (output : Option Sink) (w : OutWorld) : OutWorld :=
  match output with
  | none => { w with stdout := w.stdout ++ [i.debugText] }
  | some s => { w with fileWrites := w.fileWrites ++ [(s.path, i.debugText ++ "\n")] }

/-- `DicomStudy.debug()`: prints the header `"> Study <uid>"` to standard
output when no sink is attached, else writes it to the sink; then lets each
instance of the ordered sequence write its own block to the same sink. -/
def DicomStudy.debug (st : DicomStudy) (w : OutWorld) : OutWorld × Option PyError :=
  match st.studyInstanceUID with
  | .error e => (w, some e)
  | .ok uid =>
      let w1 :=
        match st.output with
        | none => { w with stdout := w.stdout ++ ["> Study " ++ uid] }
        | some s => { w with fileWrites := w.fileWrites ++ [(s.path, "> Study " ++ uid ++ "\n")] }
      (st.instances.foldl (fun acc i => i.debug st.output acc) w1, none)

/-- `OccursIn u t`: the directory `u` is a node of the tree `t` (the tree
itself, or a node of one of its subdirectories). -/
inductive OccursIn : DirTree → DirTree → Prop where
  | refl (t : DirTree) : OccursIn t t
  | child {u w : DirTree} (path : String) (files : List FileEntry)
      (subdirs : List DirTree) (hmem : w ∈ subdirs) (h : OccursIn u w) :
      OccursIn u (.node path files subdirs)

/-! Concrete inputs used to evaluate the embedded code at specific points. -/

/-- An instance whose release capability raises. -/
def instBad : Inst :=
  { filename := "/d/a.dcm", sopInstanceUID := "1.1", studyInstanceUID := "9.9"
    tidyFails := true, tidyCount := 0 }

/-- An instance whose release capability succeeds. -/
def instGood : Inst :=
  { filename := "/d/b.dcm", sopInstanceUID := "1.2", studyInstanceUID := "9.9"
    tidyFails := false, tidyCount := 0 }

/-- A second instance whose release capability succeeds. -/
def instGood2 : Inst :=
  { filename := "/d/c.dcm", sopInstanceUID := "1.3", studyInstanceUID := "9.9"
    tidyFails := false, tidyCount := 0 }

/-- A study of two instances whose first release raises. -/
def studyBadFirst : DicomStudy :=
  { dcmDir := "/d", instances := [instBad, instGood]
    instancesByUID := [("1.1", instBad), ("1.2", instGood)]
    dataDictionary := "dd", output := none }

/-- A study of two instances whose releases both succeed. -/
def studyAllGood : DicomStudy :=
  { dcmDir := "/d", instances := [instGood, instGood2]
    instancesByUID := [("1.2", instGood), ("1.3", instGood2)]
    dataDictionary := "dd", output := none }

/-- An instance whose unique identifier differs from the parent-study
identifier it reports. -/
def instFirst : Inst :=
  { filename := "/d/a.dcm", sopInstanceUID := "1.2.3", studyInstanceUID := "9.9.9"
    tidyFails := false, tidyCount := 0 }

/-- A study whose single instance reports distinct unique and parent-study
identifiers. -/
def studyOne : DicomStudy :=
  { dcmDir := "/d", instances := [instFirst]
    instancesByUID := [("1.2.3", instFirst)]
    dataDictionary := "dd", output := none }

/-- A study with a sink already attached and open. -/
def studyWithSink : DicomStudy :=
  { dcmDir := "/d", instances := []
    instancesByUID := []
    dataDictionary := "dd", output := some { path := "/out/old.txt", closed := false } }

/-- A filesystem holding one directory `/d` (empty) and one regular file
`/out/taken.txt` with contents `"precious"`. -/
def fsBase : FS :=
  { dirs := [("/d", .node "/d" [] [])]
    files := [("/out/taken.txt", "precious")] }

/-- The directory tree of `/studies/A`: three files directly in it, two of
which are recognized DICOM files that report the same unique identifier. -/
def treeCollide : DirTree :=
  .node "/studies/A"
    [ { name := "a.dcm", isDicom := true, sopInstanceUID := "1.1"
        studyInstanceUID := "9.9", tidyFails := false }
    , { name := "b.dcm", isDicom := true, sopInstanceUID := "1.1"
        studyInstanceUID := "9.9", tidyFails := false }
    , { name := "notes.txt", isDicom := false, sopInstanceUID := ""
        studyInstanceUID := "", tidyFails := false } ]
    []

/-- A filesystem whose only directory is `/studies/A` with `treeCollide`. -/
def fsCollide : FS :=
  { dirs := [("/studies/A", treeCollide)], files := [] }

/-- The study built over `fsCollide`. -/
def studyCollide : DicomStudy :=
  DicomStudy.read
    { dcmDir := "/studies/A", instances := [], instancesByUID := []
      dataDictionary := "dd", output := none } treeCollide

/-- The subdirectory `/d/sub`, holding `y.dcm` with unique identifier
`"7.7"`. -/
def subTreeNested : DirTree :=
  .node "/d/sub"
    [ { name := "y.dcm", isDicom := true, sopInstanceUID := "7.7"
        studyInstanceUID := "9.9", tidyFails := false } ]
    []

/-- A two-level directory tree: the root `/d` holds `x.dcm` and the
subdirectory `/d/sub` holds `y.dcm`; both report the unique identifier
`"7.7"`. -/
def treeNested : DirTree :=
  .node "/d"
    [ { name := "x.dcm", isDicom := true, sopInstanceUID := "7.7"
        studyInstanceUID := "9.9", tidyFails := false } ]
    [ subTreeNested ]

/-- The study built over `treeNested`. -/
def studyNested : DicomStudy :=
  DicomStudy.read
    { dcmDir := "/d", instances := [], instancesByUID := []
      dataDictionary := "dd", output := none } treeNested

/-! Helper lemmas, shared by the claim theorems below. -/

/-- Python subscription at index 0 of a non-empty list yields the head. -/
theorem pyIndex_cons_zero {α : Type} (i : α) (l : List α) :
    pyIndex (i :: l) 0 = .ok i := by
  have h : (0 : Int) ≤ pyAdjust (i :: l).length 0 ∧
      pyAdjust (i :: l).length 0 < ((i :: l).length : Int) := by
    simp [pyAdjust]
  rw [pyIndex, dif_pos h]
  simp [pyAdjust]

/-- `studyInstanceUID` computes the parent-study identifier of the head of the
ordered sequence, or the empty string on an empty sequence. -/
theorem studyInstanceUID_spec (st : DicomStudy) :
    st.studyInstanceUID =
      match st.instances with
      | [] => Except.ok ""
      | i :: _ => Except.ok i.studyInstanceUID := by
  unfold DicomStudy.studyInstanceUID DicomStudy.numInstances DicomStudy.«instance»
  cases h : st.instances with
  | nil => simp [h]
  | cons i l => simp [h, pyIndex_cons_zero, Except.map]

/-- `studyInstanceUID` never raises. -/
theorem studyInstanceUID_isOk (st : DicomStudy) :
    ∃ u, st.studyInstanceUID = .ok u := by
  rw [studyInstanceUID_spec]
  cases st.instances with
  | nil => exact ⟨"", rfl⟩
  | cons i l => exact ⟨i.studyInstanceUID, rfl⟩

/-- The normalised index is in range exactly when the original index lies in
`[-len, len)`. -/
theorem pyAdjust_range_iff (len : Nat) (n : Int) :
    (0 ≤ pyAdjust len n ∧ pyAdjust len n < (len : Int)) ↔
      (-(len : Int) ≤ n ∧ n < (len : Int)) := by
  unfold pyAdjust
  by_cases hn : n < 0
  · rw [if_pos hn]; omega
  · rw [if_neg hn]; omega

/-- Python subscription raises `IndexError` exactly when the index lies
outside `[-len, len)`. -/
theorem pyIndex_err_iff {α : Type} (xs : List α) (n : Int) :
    pyIndex xs n = .error .indexError ↔
      ¬(-(xs.length : Int) ≤ n ∧ n < (xs.length : Int)) := by
  unfold pyIndex
  split
  · rename_i h
    have hr := (pyAdjust_range_iff xs.length n).mp h
    simp [hr]
  · rename_i h
    have hr : ¬(-(xs.length : Int) ≤ n ∧ n < (xs.length : Int)) := fun hc =>
      h ((pyAdjust_range_iff xs.length n).mpr hc)
    simp [hr]

/-- Python subscription at a non-negative in-range index yields the element at
that position. -/
theorem pyIndex_ok_nonneg {α : Type} (xs : List α) (n : Int) (h0 : 0 ≤ n)
    (hlt : n < (xs.length : Int)) :
    ∃ i, xs.get? n.toNat = some i ∧ pyIndex xs n = .ok i := by
  have hadj : pyAdjust xs.length n = n := by
    unfold pyAdjust
    rw [if_neg (by omega : ¬n < 0)]
  have hc : 0 ≤ pyAdjust xs.length n ∧ pyAdjust xs.length n < (xs.length : Int) := by
    rw [hadj]; exact ⟨h0, hlt⟩
  rw [pyIndex, dif_pos hc]
  refine ⟨_, ?_, rfl⟩
  have htn : (pyAdjust xs.length n).toNat = n.toNat := by rw [hadj]
  rw [← htn]
  exact List.get?_eq_get (by omega)

/-- Python subscription at a negative in-range index yields the element at
position `len + n`. -/
theorem pyIndex_ok_neg {α : Type} (xs : List α) (n : Int)
    (h0 : -(xs.length : Int) ≤ n) (hlt : n < 0) :
    ∃ i, xs.get? (n + xs.length).toNat = some i ∧ pyIndex xs n = .ok i := by
  have hadj : pyAdjust xs.length n = n + xs.length := by
    unfold pyAdjust
    rw [if_pos hlt]
  have hc : 0 ≤ pyAdjust xs.length n ∧ pyAdjust xs.length n < (xs.length : Int) := by
    rw [hadj]; omega
  rw [pyIndex, dif_pos hc]
  refine ⟨_, ?_, rfl⟩
  rw [← hadj]
  exact List.get?_eq_get (by omega)

/-! Claims about `DicomStudy`, one theorem per claim. -/

/-- C1: the claim says `tidy` invokes each descriptor release exactly once per
Study lifetime even when one release fails partway, and that a second `tidy`
does not re-invoke any release.  The code violates both halves: on
`studyBadFirst` the first release raises and the second descriptor is never
released (counts `[1, 0]`), and on `studyAllGood` two calls to `tidy` invoke
every release twice (counts `[2, 2]`). -/
theorem c1_tidy_not_exactly_once :
    ((studyBadFirst.tidy).1.instances.map (fun i => i.tidyCount) = [1, 0] ∧
      (studyBadFirst.tidy).2 =
        some (.ioError "cannot remove binary items - /d/a.dcm")) ∧
    ((studyAllGood.tidy).1.tidy).1.instances.map (fun i => i.tidyCount) = [2, 2] :=
  ⟨⟨rfl, rfl⟩, rfl⟩

/-- C2 counterexample: the claim says `studyInstanceUID` returns the unique
instance identifier of the first descriptor.  On `studyOne` the first (and
only) descriptor has unique instance identifier `"1.2.3"`, yet
`studyInstanceUID` returns `"9.9.9"` (the parent-study identifier it
reports). -/
theorem c2_first_uid_not_returned :
    studyOne.instances.map (fun i => i.sopInstanceUID) = ["1.2.3"] ∧
    studyOne.studyInstanceUID = .ok "9.9.9" ∧
    ("9.9.9" : String) ≠ "1.2.3" :=
  ⟨rfl, rfl, by decide⟩

/-- C2 amended: `studyInstanceUID` returns the parent-study identifier
reported by the first descriptor of the ordered sequence when the sequence is
non-empty, and the empty string when it is empty. -/
theorem c2_study_uid_of_first (st : DicomStudy) :
    st.studyInstanceUID =
      match st.instances with
      | [] => Except.ok ""
      | i :: _ => Except.ok i.studyInstanceUID :=
  studyInstanceUID_spec st

/-- C3: the claim says `setOutput` on a study with an attached sink first
closes the old sink and then attaches the new one.  The code instead raises
`NameError` from the line `self.__output(close)` (the bare name `close` is
unbound): on `studyWithSink`, with the fresh path `/out/new.txt`, the call
leaves the study and filesystem untouched — the old sink is still attached and
still open, and no new sink is attached. -/
theorem c3_setOutput_reattach_raises :
    studyWithSink.setOutput fsBase "/out/new.txt" =
      (studyWithSink, fsBase, some (.nameError "close")) ∧
    studyWithSink.output = some { path := "/out/old.txt", closed := false } ∧
    fsBase.access "/out/new.txt" = false :=
  ⟨rfl, rfl, rfl⟩

/-- C6: with no sink attached, `setOutput` on a non-empty path that already
exists raises `IOError("File already exists - ...")` and returns with the
study unchanged (output still unset) and the filesystem unchanged (the
existing file keeps its contents). -/
theorem c6_setOutput_existing_path (st : DicomStudy) (fs : FS) (p : String)
    (hout : st.output = none) (hne : p ≠ "") (hex : fs.access p = true) :
    st.setOutput fs p = (st, fs, some (.ioError ("File already exists - " ++ p))) := by
  unfold DicomStudy.setOutput
  rw [if_neg hne, hout]
  simp [hex]

/-- C6 witness: `setOutput` on `studyOne` (no sink) with the existing path
`/out/taken.txt` raises and changes nothing. -/
theorem c6_setOutput_existing_path_witness :
    studyOne.setOutput fsBase "/out/taken.txt" =
      (studyOne, fsBase, some (.ioError "File already exists - /out/taken.txt")) :=
  c6_setOutput_existing_path studyOne fsBase "/out/taken.txt" rfl (by decide) rfl

/-- C9: on a study with an attached sink, `setOutput` with the empty string
returns immediately: the study and the filesystem are unchanged, no exception
is raised, and the previously attached sink is still attached with its
`closed` flag unchanged. -/
theorem c9_setOutput_empty_keeps_sink (st : DicomStudy) (fs : FS) (s : Sink)
    (hout : st.output = some s) :
    st.setOutput fs "" = (st, fs, none) ∧
    (st.setOutput fs "").1.output = some s := by
  constructor
  · unfold DicomStudy.setOutput
    rw [if_pos rfl]
  · unfold DicomStudy.setOutput
    rw [if_pos rfl]
    exact hout

/-- C9 witness: on `studyWithSink` the empty-string call changes nothing and
the sink `/out/old.txt` stays attached and open. -/
theorem c9_setOutput_empty_keeps_sink_witness :
    studyWithSink.setOutput fsBase "" = (studyWithSink, fsBase, none) ∧
    (studyWithSink.setOutput fsBase "").1.output =
      some { path := "/out/old.txt", closed := false } :=
  c9_setOutput_empty_keeps_sink studyWithSink fsBase
    { path := "/out/old.txt", closed := false } rfl

/-- C5 counterexample: the claim says `instance(n)` fails if and only if `n`
is outside `[0, numInstances())`.  On `studyOne` (one instance) the index `-1`
is outside that interval, yet the call succeeds and returns the instance. -/
theorem c5_negative_index_not_error :
    studyOne.«instance» (-1) = .ok instFirst ∧
    ¬((0 : Int) ≤ -1 ∧ (-1 : Int) < (studyOne.numInstances : Int)) :=
  ⟨rfl, by decide⟩

/-- C5 amended: `instance(n)` raises `IndexError` if and only if `n` is
outside `[-numInstances(), numInstances())`; a non-negative in-range index
returns the descriptor at that zero-based position, and a negative in-range
index returns the descriptor at position `numInstances() + n`. -/
theorem c5_instance_python_indexing (st : DicomStudy) (n : Int) :
    (st.«instance» n = .error .indexError ↔
      ¬(-(st.numInstances : Int) ≤ n ∧ n < (st.numInstances : Int))) ∧
    (0 ≤ n → n < (st.numInstances : Int) →
      ∃ i, st.instances.get? n.toNat = some i ∧ st.«instance» n = .ok i) ∧
    (-(st.numInstances : Int) ≤ n → n < 0 →
      ∃ i, st.instances.get? (n + st.numInstances).toNat = some i ∧
        st.«instance» n = .ok i) := by
  unfold DicomStudy.«instance» DicomStudy.numInstances
  exact ⟨pyIndex_err_iff st.instances n,
    fun h0 hlt => pyIndex_ok_nonneg st.instances n h0 hlt,
    fun h0 hlt => pyIndex_ok_neg st.instances n h0 hlt⟩

/-- C5 amended witness: on `studyOne`, index `0` returns the descriptor at
position `0` and index `-1` the descriptor at position `1 + (-1) = 0`. -/
theorem c5_instance_python_indexing_witness :
    (∃ i, studyOne.instances.get? (0 : Int).toNat = some i ∧
      studyOne.«instance» 0 = .ok i) ∧
    (∃ i, studyOne.instances.get? ((-1 : Int) + studyOne.numInstances).toNat = some i ∧
      studyOne.«instance» (-1) = .ok i) :=
  ⟨(c5_instance_python_indexing studyOne 0).2.1 (by decide) (by decide),
    (c5_instance_python_indexing studyOne (-1)).2.2 (by decide) (by decide)⟩

/-- C7: constructing a study over a path that is not an existing directory
raises `IOError("Directory does not exist - ...")` with no study state
returned at all; over an existing directory the construction succeeds and
returns the fully built study. -/
theorem c7_init_requires_directory (dcmDir ddUrl : String) (fs : FS) :
    (fs.lookupDir dcmDir = none →
      DicomStudy.init dcmDir ddUrl fs =
        .error (.ioError ("Directory does not exist - " ++ dcmDir))) ∧
    (∀ tree, fs.lookupDir dcmDir = some tree →
      DicomStudy.init dcmDir ddUrl fs =
        .ok (DicomStudy.read
          { dcmDir := dcmDir, instances := [], instancesByUID := []
            dataDictionary := ddUrl, output := none } tree)) := by
  constructor
  · intro h
    unfold DicomStudy.init
    rw [h]
  · intro tree h
    unfold DicomStudy.init
    rw [h]

/-- C7 witness: construction over the missing directory `/nope` raises and
returns nothing; over the existing directory `/studies/A` it succeeds. -/
theorem c7_init_requires_directory_witness :
    DicomStudy.init "/nope" "dd" fsBase =
      .error (.ioError "Directory does not exist - /nope") ∧
    DicomStudy.init "/studies/A" "dd" fsCollide = .ok studyCollide :=
  ⟨(c7_init_requires_directory "/nope" "dd" fsBase).1 rfl,
    (c7_init_requires_directory "/studies/A" "dd" fsCollide).2 treeCollide rfl⟩

/-- `readStep` folds never touch the output sink. -/
theorem foldl_readStep_output (l : List FileEntry) (s : DicomStudy) :
    (l.foldl readStep s).output = s.output := by
  induction l generalizing s with
  | nil => rfl
  | cons f t ih => rw [List.foldl_cons, ih]; rfl

/-- `__read` never touches the output sink. -/
theorem read_output (st : DicomStudy) (tree : DirTree) :
    (st.read tree).output = st.output :=
  foldl_readStep_output _ _

/-- With no sink attached, the instance-dump loop appends each descriptor
block to standard output and leaves the file writes alone. -/
theorem foldl_debug_none (l : List Inst) (w : OutWorld) :
    l.foldl (fun acc i => i.debug none acc) w =
      { stdout := w.stdout ++ l.map Inst.debugText, fileWrites := w.fileWrites } := by
  induction l generalizing w with
  | nil => simp
  | cons i t ih =>
      rw [List.foldl_cons, ih]
      simp [Inst.debug]

/-- With no sink attached, `debug` prints the header line followed by one
block per descriptor to standard output, writes nothing to any file, and
raises nothing. -/
theorem debug_none (st : DicomStudy) (w : OutWorld) (hout : st.output = none) :
    ∃ u, st.studyInstanceUID = .ok u ∧
      st.debug w =
        ({ stdout := w.stdout ++ ("> Study " ++ u) :: st.instances.map Inst.debugText
           fileWrites := w.fileWrites }, none) := by
  obtain ⟨u, hu⟩ := studyInstanceUID_isOk st
  refine ⟨u, hu, ?_⟩
  unfold DicomStudy.debug
  rw [hu, hout]
  simp [foldl_debug_none]

/-- If construction succeeded, the study it returned has no sink attached. -/
theorem init_output_none (dcmDir ddUrl : String) (fs : FS) (st : DicomStudy)
    (hinit : DicomStudy.init dcmDir ddUrl fs = .ok st) : st.output = none := by
  unfold DicomStudy.init at hinit
  cases hfd : fs.lookupDir dcmDir with
  | none => rw [hfd] at hinit; exact absurd hinit (by simp)
  | some tree =>
      rw [hfd] at hinit
      cases hinit
      exact read_output _ _

/-- C8: a freshly constructed study has no sink attached; `setOutput("")`
returns at once and leaves the sink unset, and `debug()` then writes its
header line (followed by the descriptor blocks) to standard output and nothing
to any file. -/
theorem c8_empty_output_means_stdout (dcmDir ddUrl : String) (fs fs2 : FS)
    (st : DicomStudy) (w : OutWorld)
    (hinit : DicomStudy.init dcmDir ddUrl fs = .ok st) :
    st.output = none ∧
    st.setOutput fs2 "" = (st, fs2, none) ∧
    ∃ u, st.studyInstanceUID = .ok u ∧
      st.debug w =
        ({ stdout := w.stdout ++ ("> Study " ++ u) :: st.instances.map Inst.debugText
           fileWrites := w.fileWrites }, none) := by
  have hout := init_output_none dcmDir ddUrl fs st hinit
  refine ⟨hout, ?_, debug_none st w hout⟩
  unfold DicomStudy.setOutput
  rw [if_pos rfl]

/-- C8 witness: the study constructed over `/studies/A` has no sink,
`setOutput("")` leaves it that way, and `debug()` starting from empty output
prints the header `"> Study 9.9"` to standard output and writes no file. -/
theorem c8_empty_output_means_stdout_witness :
    studyCollide.output = none ∧
    studyCollide.setOutput fsCollide "" = (studyCollide, fsCollide, none) ∧
    ∃ u, studyCollide.studyInstanceUID = .ok u ∧
      studyCollide.debug { stdout := [], fileWrites := [] } =
        ({ stdout := [] ++ ("> Study " ++ u) :: studyCollide.instances.map Inst.debugText
           fileWrites := [] }, none) :=
  c8_empty_output_means_stdout "/studies/A" "dd" fsCollide fsCollide studyCollide
    { stdout := [], fileWrites := [] } rfl

/-- Overwriting the entries of key `k` in place does not disturb a lookup for
another key. -/
theorem find?_map_replace_ne (tl : List (String × Inst)) (k : String) (v : Inst)
    (uid : String) (hne : uid ≠ k) :
    (tl.map (fun p => if p.1 == k then (k, v) else p)).find? (fun p => p.1 == uid) =
      tl.find? (fun p => p.1 == uid) := by
  induction tl with
  | nil => rfl
  | cons p t ih =>
      by_cases hp : p.1 = k
      · rw [List.map_cons, if_pos (by simp [hp])]
        rw [List.find?_cons_of_neg _ (by simp [Ne.symm hne]),
          List.find?_cons_of_neg _ (by simp [hp, Ne.symm hne])]
        exact ih
      · rw [List.map_cons, if_neg (by simp [hp])]
        by_cases hu : p.1 = uid
        · rw [List.find?_cons_of_pos _ (by simp [hu]),
            List.find?_cons_of_pos _ (by simp [hu])]
        · rw [List.find?_cons_of_neg _ (by simp [hu]),
            List.find?_cons_of_neg _ (by simp [hu])]
          exact ih

/-- When the key is present, overwriting its entries in place makes the lookup
for it find the new pair. -/
theorem find?_map_replace_self (tl : List (String × Inst)) (k : String) (v : Inst)
    (hany : tl.any (fun p => p.1 == k) = true) :
    (tl.map (fun p => if p.1 == k then (k, v) else p)).find? (fun p => p.1 == k) =
      some (k, v) := by
  induction tl with
  | nil => simp at hany
  | cons p t ih =>
      by_cases hp : p.1 = k
      · rw [List.map_cons, if_pos (by simp [hp])]
        rw [List.find?_cons_of_pos _ (by simp)]
      · rw [List.map_cons, if_neg (by simp [hp])]
        rw [List.find?_cons_of_neg _ (by simp [hp])]
        refine ih ?_
        rcases List.any_eq_true.mp hany with ⟨x, hx, hxk⟩
        rcases List.mem_cons.mp hx with h | h
        · rw [h] at hxk
          exact absurd (by simpa using hxk) hp
        · exact List.any_eq_true.mpr ⟨x, h, hxk⟩

/-- A Python dict store followed by a lookup: the stored key now maps to the
stored value, every other key is untouched. -/
theorem dictGet_dictSet (d : List (String × Inst)) (k : String) (v : Inst)
    (uid : String) :
    dictGet (dictSet d k v) uid = if uid = k then .ok v else dictGet d uid := by
  unfold dictSet dictGet
  by_cases hany : d.any (fun p => p.1 == k) = true
  · rw [if_pos hany]
    by_cases hu : uid = k
    · subst hu
      rw [find?_map_replace_self d uid v hany, if_pos rfl]
    · rw [find?_map_replace_ne d k v uid hu, if_neg hu]
  · rw [if_neg hany]
    have hnone : d.find? (fun p => p.1 == k) = none := by
      refine List.find?_eq_none.mpr ?_
      intro x hx hpx
      exact hany (List.any_eq_true.mpr ⟨x, hx, hpx⟩)
    rw [List.find?_append]
    by_cases hu : uid = k
    · subst hu
      rw [hnone, if_pos rfl]
      simp
    · rw [if_neg hu]
      have htail : [(k, v)].find? (fun p => p.1 == uid) = none := by
        simp [Ne.symm hu]
      rw [htail]
      cases d.find? (fun p => p.1 == uid) <;> rfl

/-- Overwriting the entries of key `k` in place does not change how many
entries carry any given key. -/
theorem countKey_map_replace (d : List (String × Inst)) (k : String) (v : Inst)
    (uid : String) :
    countKey (d.map (fun p => if p.1 == k then (k, v) else p)) uid = countKey d uid := by
  unfold countKey
  induction d with
  | nil => rfl
  | cons p t ih =>
      by_cases hp : p.1 = k
      · rw [List.map_cons, if_pos (by simp [hp])]
        by_cases hu : uid = k
        · subst hu
          rw [List.filter_cons_of_pos (by simp), List.filter_cons_of_pos (by simp [hp])]
          simpa using ih
        · rw [List.filter_cons_of_neg (by simp [Ne.symm hu]),
            List.filter_cons_of_neg (by simp [hp, Ne.symm hu])]
          exact ih
      · rw [List.map_cons, if_neg (by simp [hp])]
        by_cases hu : p.1 = uid
        · rw [List.filter_cons_of_pos (by simp [hu]), List.filter_cons_of_pos (by simp [hu])]
          simpa using ih
        · rw [List.filter_cons_of_neg (by simp [hu]), List.filter_cons_of_neg (by simp [hu])]
          exact ih

/-- Storing under key `k` makes the number of entries for `k` one if it was
zero and keeps it otherwise. -/
theorem countKey_dictSet_self (d : List (String × Inst)) (k : String) (v : Inst) :
    countKey (dictSet d k v) k = if countKey d k = 0 then 1 else countKey d k := by
  unfold dictSet
  by_cases hany : d.any (fun p => p.1 == k) = true
  · rw [if_pos hany, countKey_map_replace]
    have hpos : countKey d k ≠ 0 := by
      rcases List.any_eq_true.mp hany with ⟨x, hx, hxk⟩
      unfold countKey
      intro hzero
      have hnil := List.length_eq_zero.mp hzero
      have := List.filter_eq_nil_iff.mp hnil x hx
      exact this hxk
    rw [if_neg hpos]
  · rw [if_neg hany]
    have hzero : countKey d k = 0 := by
      unfold countKey
      refine List.length_eq_zero.mpr (List.filter_eq_nil_iff.mpr ?_)
      intro x hx hpx
      exact hany (List.any_eq_true.mpr ⟨x, hx, hpx⟩)
    rw [hzero, if_pos rfl]
    unfold countKey at hzero ⊢
    rw [List.filter_append, List.length_eq_zero.mp hzero]
    simp

/-- Storing under key `k` does not change the number of entries for any other
key. -/
theorem countKey_dictSet_ne (d : List (String × Inst)) (k : String) (v : Inst)
    (uid : String) (hne : uid ≠ k) :
    countKey (dictSet d k v) uid = countKey d uid := by
  unfold dictSet
  by_cases hany : d.any (fun p => p.1 == k) = true
  · rw [if_pos hany, countKey_map_replace]
  · rw [if_neg hany]
    unfold countKey
    rw [List.filter_append]
    simp [Ne.symm hne]

/-- The second `__read` loop appends one constructed instance per accepted
file, in order, to the ordered sequence. -/
theorem foldl_readStep_instances (l : List FileEntry) (s : DicomStudy) :
    (l.foldl readStep s).instances = s.instances ++ l.map mkInstance := by
  induction l generalizing s with
  | nil => simp
  | cons f t ih =>
      rw [List.foldl_cons, ih]
      simp [readStep]

/-- After the second `__read` loop, looking up a UID in the index finds the
last processed instance with that UID, and falls back to the initial index
when no processed instance has it. -/
theorem foldl_readStep_dictGet (l : List FileEntry) (s : DicomStudy) (uid : String) :
    dictGet (l.foldl readStep s).instancesByUID uid =
      match (l.map mkInstance).reverse.find? (fun i => i.sopInstanceUID == uid) with
      | some i => Except.ok i
      | none => dictGet s.instancesByUID uid := by
  induction l generalizing s with
  | nil => simp
  | cons f t ih =>
      rw [List.foldl_cons, ih]
      cases hfind : (t.map mkInstance).reverse.find? (fun i => i.sopInstanceUID == uid) with
      | some i =>
          rw [List.map_cons, List.reverse_cons, List.find?_append, hfind]
          rfl
      | none =>
          rw [List.map_cons, List.reverse_cons, List.find?_append, hfind]
          have hset : (readStep s f).instancesByUID =
              dictSet s.instancesByUID (mkInstance f).sopInstanceUID (mkInstance f) := rfl
          rw [hset, dictGet_dictSet]
          by_cases hu : uid = (mkInstance f).sopInstanceUID
          · rw [if_pos hu]
            have hp : ((mkInstance f).sopInstanceUID == uid) = true := by simp [hu]
            simp [List.find?, hp]
          · rw [if_neg hu]
            have hp : ((mkInstance f).sopInstanceUID == uid) = false := by
              simp [Ne.symm hu]
            simp [List.find?, hp]

/-- The second `__read` loop keeps every key of the index unique: at most one
entry per UID. -/
theorem foldl_readStep_countKey_le (l : List FileEntry) (s : DicomStudy) (uid : String)
    (h : countKey s.instancesByUID uid ≤ 1) :
    countKey (l.foldl readStep s).instancesByUID uid ≤ 1 := by
  induction l generalizing s with
  | nil => exact h
  | cons f t ih =>
      rw [List.foldl_cons]
      refine ih (readStep s f) ?_
      have hset : (readStep s f).instancesByUID =
          dictSet s.instancesByUID (mkInstance f).sopInstanceUID (mkInstance f) := rfl
      rw [hset]
      by_cases hu : uid = (mkInstance f).sopInstanceUID
      · rw [hu, countKey_dictSet_self]
        rw [← hu]
        split <;> omega
      · rw [countKey_dictSet_ne _ _ _ _ hu]
        exact h

/-- If some processed file carries the UID (or the initial index already held
exactly one entry for it), the index holds exactly one entry for the UID after
the second `__read` loop. -/
theorem foldl_readStep_countKey_one (l : List FileEntry) (s : DicomStudy) (uid : String)
    (hle : countKey s.instancesByUID uid ≤ 1)
    (h : (l.map mkInstance).any (fun i => i.sopInstanceUID == uid) = true ∨
      countKey s.instancesByUID uid = 1) :
    countKey (l.foldl readStep s).instancesByUID uid = 1 := by
  induction l generalizing s with
  | nil =>
      rcases h with h | h
      · simp at h
      · exact h
  | cons f t ih =>
      rw [List.foldl_cons]
      have hset : (readStep s f).instancesByUID =
          dictSet s.instancesByUID (mkInstance f).sopInstanceUID (mkInstance f) := rfl
      by_cases hu : (mkInstance f).sopInstanceUID = uid
      · refine ih (readStep s f) ?_ (Or.inr ?_)
        · rw [hset, ← hu, countKey_dictSet_self, hu]
          split <;> omega
        · rw [hset, ← hu, countKey_dictSet_self, hu]
          split <;> omega
      · refine ih (readStep s f) ?_ ?_
        · rw [hset, countKey_dictSet_ne _ _ _ _ (Ne.symm hu)]
          exact hle
        · rw [hset, countKey_dictSet_ne _ _ _ _ (Ne.symm hu)]
          rcases h with h | h
          · rw [List.map_cons, List.any_cons] at h
            have hp : ((mkInstance f).sopInstanceUID == uid) = false := by simp [hu]
            rw [hp, Bool.false_or] at h
            exact Or.inl h
          · exact Or.inr h

/-- A UID carried by some element has a last carrier: searching the reversed
list finds one. -/
theorem reverse_find?_of_any (l : List Inst) (uid : String)
    (h : l.any (fun i => i.sopInstanceUID == uid) = true) :
    ∃ i, l.reverse.find? (fun i => i.sopInstanceUID == uid) = some i := by
  have hrev : l.reverse.any (fun i => i.sopInstanceUID == uid) = true := by
    rw [List.any_reverse]; exact h
  have hsome : (l.reverse.find? (fun i => i.sopInstanceUID == uid)).isSome := by
    rw [List.find?_isSome]
    simpa using List.any_eq_true.mp hrev
  exact Option.isSome_iff_exists.mp hsome

/-- C4: when construction succeeds over a directory, the ordered sequence has
one descriptor per accepted file (so `numInstances` counts them all, identifier
collisions included), while for every UID carried by some descriptor the index
holds exactly one entry, namely the later-discovered (last in traversal order)
descriptor with that UID. -/
theorem c4_index_last_write_wins (dcmDir ddUrl : String) (fs : FS) (tree : DirTree)
    (st : DicomStudy) (hdir : fs.lookupDir dcmDir = some tree)
    (hinit : DicomStudy.init dcmDir ddUrl fs = .ok st) :
    st.numInstances = (dcmNamesOf tree).length ∧
    ∀ uid, st.instances.any (fun i => i.sopInstanceUID == uid) = true →
      countKey st.instancesByUID uid = 1 ∧
      ∃ i, st.instances.reverse.find? (fun j => j.sopInstanceUID == uid) = some i ∧
        st.instanceByUID uid = .ok i := by
  unfold DicomStudy.init at hinit
  rw [hdir] at hinit
  cases hinit
  rw [DicomStudy.read]
  have hinst := foldl_readStep_instances (dcmNamesOf tree)
    { dcmDir := dcmDir, instances := [], instancesByUID := []
      dataDictionary := ddUrl, output := none }
  constructor
  · rw [DicomStudy.numInstances, hinst]
    simp
  · intro uid hany
    rw [hinst] at hany
    simp only [List.nil_append] at hany
    constructor
    · exact foldl_readStep_countKey_one (dcmNamesOf tree) _ uid (by simp [countKey])
        (Or.inl hany)
    · obtain ⟨i, hi⟩ := reverse_find?_of_any _ uid hany
      refine ⟨i, ?_, ?_⟩
      · rw [hinst]
        simpa using hi
      · rw [DicomStudy.instanceByUID, foldl_readStep_dictGet, hi]

/-- C4 witness: over `/studies/A`, whose files `a.dcm` and `b.dcm` both report
UID `"1.1"`, the sequence still counts two descriptors while the index holds
exactly one entry for `"1.1"`, the later-discovered `b.dcm` descriptor. -/
theorem c4_index_last_write_wins_witness :
    studyCollide.numInstances = (dcmNamesOf treeCollide).length ∧
    countKey studyCollide.instancesByUID "1.1" = 1 ∧
    ∃ i, studyCollide.instances.reverse.find? (fun j => j.sopInstanceUID == "1.1") = some i ∧
      studyCollide.instanceByUID "1.1" = .ok i :=
  ⟨(c4_index_last_write_wins "/studies/A" "dd" fsCollide treeCollide studyCollide
      rfl rfl).1,
    (c4_index_last_write_wins "/studies/A" "dd" fsCollide treeCollide studyCollide
      rfl rfl).2 "1.1" rfl⟩

/-- `dcmEntries` distributes over concatenation of walks. -/
theorem dcmEntries_append (a b : List (String × List FileEntry)) :
    dcmEntries (a ++ b) = dcmEntries a ++ dcmEntries b := by
  unfold dcmEntries
  rw [List.flatMap_append]

/-- The walk of a forest containing a directory splits around the walk of that
directory. -/
theorem walkForest_mem_split (subs : List DirTree) (u : DirTree) (h : u ∈ subs) :
    ∃ a b, walkForest subs = a ++ walkBottomUp u ++ b := by
  induction subs with
  | nil => cases h
  | cons t ts ih =>
      rcases List.mem_cons.mp h with h | h
      · refine ⟨[], walkForest ts, ?_⟩
        rw [h, walkForest, List.nil_append]
      · obtain ⟨a, b, hab⟩ := ih h
        refine ⟨walkBottomUp t ++ a, b, ?_⟩
        rw [walkForest, hab]
        simp [List.append_assoc]

/-- The accepted files of a tree: first everything found in the
subdirectories (bottom-up), then the files directly in the root. -/
theorem dcmNamesOf_node (p : String) (files : List FileEntry) (subs : List DirTree) :
    dcmNamesOf (.node p files subs) = dcmEntries (walkForest subs) ++ acceptedIn p files := by
  unfold dcmNamesOf
  rw [walkBottomUp, dcmEntries_append]
  simp [dcmEntries]

/-- C10: the walk is bottom-up, so for every directory `u` of the tree, every
accepted file located in a subdirectory of `u` enters the `dcmNames` sequence
before every accepted file located directly in `u` (the subtree of `u`
contributes the contiguous block `subforest files ++ own files`); consequently,
on the UID collision in `treeNested` between `/d/sub/y.dcm` and the ancestor
file `/d/x.dcm`, the index retains the ancestor descriptor `/d/x.dcm`. -/
theorem c10_walk_bottom_up (t u : DirTree) (h : OccursIn u t) :
    (∃ pre post, dcmNamesOf t =
      pre ++ (dcmEntries (walkForest u.subdirs) ++ acceptedIn u.path u.files) ++ post) ∧
    studyNested.instanceByUID "7.7" =
      .ok { filename := "/d/x.dcm", sopInstanceUID := "7.7", studyInstanceUID := "9.9"
            tidyFails := false, tidyCount := 0 } := by
  refine ⟨?_, rfl⟩
  induction h with
  | refl =>
      refine ⟨[], [], ?_⟩
      cases u with
      | node p files subs =>
          simp [dcmNamesOf_node, DirTree.subdirs, DirTree.path, DirTree.files]
  | child p files subs hmem hsub ih =>
      obtain ⟨pre, post, hpp⟩ := ih
      rename_i w
      obtain ⟨a, b, hab⟩ := walkForest_mem_split subs w hmem
      refine ⟨dcmEntries a ++ pre, post ++ (dcmEntries b ++ acceptedIn p files), ?_⟩
      rw [dcmNamesOf_node, hab, dcmEntries_append, dcmEntries_append]
      have hw : dcmEntries (walkBottomUp w) =
          pre ++ (dcmEntries (walkForest u.subdirs) ++ acceptedIn u.path u.files) ++ post :=
        hpp
      rw [hw]
      simp [List.append_assoc]

/-- C10 witness: instantiated at the subdirectory `/d/sub` of `treeNested`,
whose accepted file precedes the root file of `/d` in the `dcmNames`
sequence. -/
theorem c10_walk_bottom_up_witness :
    (∃ pre post, dcmNamesOf treeNested =
      pre ++ (dcmEntries (walkForest subTreeNested.subdirs) ++
        acceptedIn subTreeNested.path subTreeNested.files) ++ post) ∧
    studyNested.instanceByUID "7.7" =
      .ok { filename := "/d/x.dcm", sopInstanceUID := "7.7", studyInstanceUID := "9.9"
            tidyFails := false, tidyCount := 0 } :=
  c10_walk_bottom_up treeNested subTreeNested
    (OccursIn.child "/d"
      [ { name := "x.dcm", isDicom := true, sopInstanceUID := "7.7"
          studyInstanceUID := "9.9", tidyFails := false } ]
      [ subTreeNested ] (List.mem_singleton.mpr rfl) (OccursIn.refl subTreeNested))

end MintConformance
